import Mathlib

/-!
Shallow embedding of the protocol and dispatch core of the `a-rs-jsonrpc`
repository: the identifier model (`src/id.rs`), the versioned request/response
envelope (`src/request.rs`, `src/response.rs`), the error taxonomy and its wire
mapping (`src/error.rs`), the registry/dispatcher (`src/service.rs`), the
handler bodies generated by the service macros (`proc-macros/src/lib.rs`), and
the transport-level error responder of the examples (`examples/echo.rs`).

JSON values are modelled by an inductive `Json` with integer numerics (the
envelope only ever carries integers); raw byte buffers are kept abstract as a
type `β` together with a parse function `β → Option Json` standing for
`serde_json::from_slice`, so that "the original, un-truncated input bytes" can
be spoken about literally.
-/

namespace Jsonrpc

/-- A JSON value (`serde_json::Value` restricted to integer numerics, which is
all the envelope model ever produces or inspects). Objects are ordered field
lists, as produced by serde's field-order serialization. -/
inductive Json where
  | null : Json
  | bool (b : Bool) : Json
  | num (n : Int) : Json
  | str (s : String) : Json
  | arr (xs : List Json) : Json
  | obj (fs : List (String × Json)) : Json

/-- Number of occurrences of key `k` among the fields of a JSON object (also
used for the route table), modelling serde's "duplicate field" errors for
derived deserializers. -/
def fieldCount {α : Type} (fs : List (String × α)) (k : String) : Nat :=
  (fs.filter (fun f => f.1 = k)).length

/-- First value bound to key `k` in an object's field list (serde reads fields
in order; with the duplicate-count guard at most one occurrence exists). -/
def getOpt {α : Type} (fs : List (String × α)) (k : String) : Option α :=
  match fs with
  | [] => none
  | (k', v) :: rest => if k' = k then some v else getOpt rest k

/-- Whether a serialized JSON object carries a field named `k`
(`false` on non-objects). -/
def hasField (j : Json) (k : String) : Bool :=
  match j with
  | Json.obj fs => fieldCount fs k != 0
  | _ => false

/-- An object's field list with every binding of key `k` removed: the "same
request with the field absent" used to compare `params: null` against a
missing `params`. -/
def removeField (fs : List (String × Json)) (k : String) : List (String × Json) :=
  fs.filter (fun f => f.1 ≠ k)

/-- The `RpcError` enum of `src/error.rs`. The wrapped foreign error values
(`std::io::Error`, `reqwest::Error`, `serde_json::Error`) are represented by
their display text, which is the only way the code ever consumes them
(`e.to_string()`). -/
inductive RpcError where
  | IoError (msg : String) : RpcError
  | ReqwestError (msg : String) : RpcError
  | SerdeError (msg : String) : RpcError
  | InvalidJsonRpcVersion (v : String) : RpcError
  | MethodNotFound : RpcError
  | CustomError (msg : String) : RpcError
  | InvalidParams (msg : String) : RpcError
deriving DecidableEq, Repr

/-- The `Display` impl derived by `thiserror` for `RpcError`
(the `#[error("...")]` attributes in `src/error.rs`). -/
def rpcErrorToString (e : RpcError) : String :=
  match e with
  | RpcError.IoError m => "io error: " ++ m
  | RpcError.ReqwestError m => "reqwest error: " ++ m
  | RpcError.SerdeError m => "serialize/deserialize error: " ++ m
  | RpcError.InvalidJsonRpcVersion v => "invalid json rpc version: " ++ v
  | RpcError.MethodNotFound => "json rpc method not found"
  | RpcError.CustomError m => "custom error: " ++ m
  | RpcError.InvalidParams m => "invalid parameters: " ++ m

/-- The wire error object `JsonRpcError` of `src/response.rs`:
`{code: i64, message: String, data: Option<Value>}`. -/
structure JsonRpcError where
  code : Int
  message : String
  data : Option Json

/-- `impl From<RpcError> for JsonRpcError` of `src/error.rs`: the fixed
taxonomy-to-wire mapping. -/
def fromRpcError (err : RpcError) : JsonRpcError :=
  match err with
  | RpcError.IoError e => { code := -32000, message := e, data := none }
  | RpcError.ReqwestError e => { code := -32001, message := e, data := none }
  | RpcError.SerdeError e => { code := -32002, message := e, data := none }
  | RpcError.InvalidJsonRpcVersion v =>
      { code := -32600, message := "Invalid JSON-RPC version: " ++ v, data := none }
  | RpcError.MethodNotFound =>
      { code := -32601, message := "method not found", data := none }
  | RpcError.CustomError msg => { code := -32003, message := msg, data := none }
  | RpcError.InvalidParams msg =>
      { code := -32602, message := "Invalid parameters: " ++ msg, data := none }

/-- The `JsonRpcVersion` enum of `src/request.rs`. -/
inductive JsonRpcVersion where
  | V1_0 : JsonRpcVersion
  | V2_0 : JsonRpcVersion
deriving DecidableEq, Repr

/-- The `Serialize` impl for `JsonRpcVersion`: exactly `"1.0"` / `"2.0"`. -/
def versionToString (v : JsonRpcVersion) : String :=
  match v with
  | JsonRpcVersion.V1_0 => "1.0"
  | JsonRpcVersion.V2_0 => "2.0"

/-- The `FromStr` impl for `JsonRpcVersion` (`src/request.rs`): `"1.0"` and
`"2.0"` parse, anything else is `InvalidJsonRpcVersion`. -/
def versionFromStr (s : String) : Except RpcError JsonRpcVersion :=
  match s with
  | "1.0" => Except.ok JsonRpcVersion.V1_0
  | "2.0" => Except.ok JsonRpcVersion.V2_0
  | _ => Except.error (RpcError.InvalidJsonRpcVersion s)

/-- The custom `Deserialize` impl for `JsonRpcVersion`: a JSON string `"1.0"`
or `"2.0"`; every other JSON value fails. -/
def versionFromJson (j : Json) : Option JsonRpcVersion :=
  match j with
  | Json.str "1.0" => some JsonRpcVersion.V1_0
  | Json.str "2.0" => some JsonRpcVersion.V2_0
  | _ => none

/-- The `Id` enum of `src/id.rs` (`u64` modelled as `Nat`; counter wraparound
is out of scope per the spec). -/
inductive Id where
  | Number (n : Nat) : Id
  | String (s : String) : Id
deriving DecidableEq, Repr

/-- `#[serde(untagged)]` serialization of `Id`: the bare number or string. -/
def idToJson (i : Id) : Json :=
  match i with
  | Id.Number n => Json.num (Int.ofNat n)
  | Id.String s => Json.str s

/-- `#[serde(untagged)]` deserialization of `Id`: a non-negative JSON integer
becomes `Number`, a JSON string becomes `String`, anything else fails. -/
def idFromJson (j : Json) : Option Id :=
  match j with
  | Json.num n => if 0 ≤ n then some (Id.Number n.toNat) else none
  | Json.str s => some (Id.String s)
  | _ => none

/-- The `JsonRpcRequest<T>` struct of `src/request.rs`. -/
structure JsonRpcRequest (T : Type) where
  jsonrpc : JsonRpcVersion
  method : String
  params : Option T
  id : Id

/-- The `JsonRpcResponse<T>` struct of `src/response.rs`. -/
structure JsonRpcResponse (T : Type) where
  jsonrpc : JsonRpcVersion
  result : Option T
  error : Option JsonRpcError
  id : Id

/-- Derived serialization of `JsonRpcError` (`src/response.rs`): fields in
declaration order, `data` omitted when `None` (`skip_serializing_if`). -/
def errorToJson (e : JsonRpcError) : Json :=
  Json.obj ([("code", Json.num e.code), ("message", Json.str e.message)] ++
    (match e.data with
     | none => []
     | some d => [("data", d)]))

/-- Derived serialization of `JsonRpcResponse<T>`: fields in declaration
order, `result` and `error` omitted when `None` (`skip_serializing_if`). -/
def respToJson {T : Type} (encodeT : T → Json) (r : JsonRpcResponse T) : Json :=
  Json.obj ([("jsonrpc", Json.str (versionToString r.jsonrpc))] ++
    (match r.result with
     | none => []
     | some v => [("result", encodeT v)]) ++
    (match r.error with
     | none => []
     | some e => [("error", errorToJson e)]) ++
    [("id", idToJson r.id)])

/-- Derived serialization of `JsonRpcRequest<T>` (`src/request.rs`): fields in
declaration order, `params` omitted entirely when `None`. -/
def reqToJson {T : Type} (encodeT : T → Json) (r : JsonRpcRequest T) : Json :=
  Json.obj ([("jsonrpc", Json.str (versionToString r.jsonrpc)),
             ("method", Json.str r.method)] ++
    (match r.params with
     | none => []
     | some p => [("params", encodeT p)]) ++
    [("id", idToJson r.id)])

/-- serde's handling of an `Option<T>` struct field without `default`: a
missing field and an explicit JSON `null` both give `None`; any other value is
decoded as `T`; a duplicated field is an error (`none` here). -/
def decodeOptField {T : Type} (fs : List (String × Json)) (k : String)
    (decodeT : Json → Option T) : Option (Option T) :=
  if fieldCount fs k ≤ 1 then
    match getOpt fs k with
    | none => some none
    | some Json.null => some none
    | some v => (decodeT v).map some
  else none

/-- Derived deserialization of `JsonRpcError`: `code` (i64) and `message`
(string) required exactly once, `data` optional, unknown fields ignored. -/
def errorFromJson (j : Json) : Option JsonRpcError :=
  match j with
  | Json.obj fs =>
    if fieldCount fs "code" == 1 && fieldCount fs "message" == 1 then
      match getOpt fs "code", getOpt fs "message", decodeOptField fs "data" some with
      | some (Json.num c), some (Json.str m), some d =>
          some { code := c, message := m, data := d }
      | _, _, _ => none
    else none
  | _ => none

/-- Derived deserialization of `JsonRpcResponse<T>` (`src/response.rs`):
`jsonrpc` and `id` required exactly once, `result` and `error` optional
(missing or `null` give `None`), unknown fields ignored. -/
def respFromJson {T : Type} (decodeT : Json → Option T) (j : Json) :
    Option (JsonRpcResponse T) :=
  match j with
  | Json.obj fs =>
    if fieldCount fs "jsonrpc" == 1 && fieldCount fs "id" == 1 then
      match getOpt fs "jsonrpc", decodeOptField fs "result" decodeT,
            decodeOptField fs "error" errorFromJson, getOpt fs "id" with
      | some vj, some res, some err, some idj =>
        match versionFromJson vj, idFromJson idj with
        | some v, some i => some { jsonrpc := v, result := res, error := err, id := i }
        | _, _ => none
      | _, _, _, _ => none
    else none
  | _ => none

/-- Modelled from the spec: deserialization of the `Request Envelope<P>` wire
form of §6 (`src/request.rs` derives only `Serialize` for `JsonRpcRequest`, so
the repository has no request-envelope deserializer; this one mirrors the
derived-`Deserialize` semantics the spec's round-trip property presumes, with
the same field conventions as `respFromJson`). -/
def reqFromJson {T : Type} (decodeT : Json → Option T) (j : Json) :
    Option (JsonRpcRequest T) :=
  match j with
  | Json.obj fs =>
    if fieldCount fs "jsonrpc" == 1 && fieldCount fs "method" == 1 &&
       fieldCount fs "id" == 1 then
      match getOpt fs "jsonrpc", getOpt fs "method",
            decodeOptField fs "params" decodeT, getOpt fs "id" with
      | some vj, some (Json.str m), some ps, some idj =>
        match versionFromJson vj, idFromJson idj with
        | some v, some i => some { jsonrpc := v, method := m, params := ps, id := i }
        | _, _ => none
      | _, _, _, _ => none
    else none
  | _ => none

/-- Initial value of `ATOMIC_U64_ID` in `src/id.rs`: the shared counter starts
at 1. -/
def ATOMIC_U64_ID_INIT : Nat := 1

/-- `Id::next_number` (`src/id.rs`): `fetch_add(1)` returns the previous
counter value, so the call yields `Number(counter)` and leaves the counter at
`counter + 1`. The atomic counter is modelled by explicit state passing. -/
def Id.next_number (counter : Nat) : Id × Nat :=
  (Id.Number counter, counter + 1)

/-- `Id::next_string` (`src/id.rs`): same shared counter, formatted as
`"id-{n}"`. -/
def Id.next_string (counter : Nat) : Id × Nat :=
  (Id.String ("id-" ++ toString counter), counter + 1)

/-- Which of the two generator flavors a call uses. -/
inductive IdFlavor where
  | number : IdFlavor
  | string : IdFlavor
deriving DecidableEq, Repr

/-- One generator call of the given flavor against the shared counter. -/
def nextIdCall (f : IdFlavor) (counter : Nat) : Id × Nat :=
  match f with
  | IdFlavor.number => Id.next_number counter
  | IdFlavor.string => Id.next_string counter

/-- A sequence of generator calls mixing the two flavors, all drawing from the
one shared counter: the returned identifiers in call order. -/
def runCalls (fs : List IdFlavor) (counter : Nat) : List Id :=
  match fs with
  | [] => []
  | f :: rest => (nextIdCall f counter).1 :: runCalls rest (nextIdCall f counter).2

/-- A handler as stored in the route table (`RpcHandlerFn` in
`src/service.rs`): raw request bytes to a serialized response string or an
`RpcError`; `async`/`BoxFuture` is erased. `β` is the abstract type of raw
byte buffers. -/
abbrev RpcHandlerFn (β : Type) : Type := β → Except RpcError String

/-- A registration entry (`RpcServiceEntry` in `src/service.rs`). -/
structure RpcServiceEntry (β : Type) where
  method : String
  handler : RpcHandlerFn β

/-- `HashMap::contains`-style check on the assoc-list model of the table. -/
def containsKey {α : Type} (m : List (String × α)) (k : String) : Bool :=
  m.any (fun e => e.1 = k)

/-- Lookup in the assoc-list model of the route table (`ROUTE_TABLE.get`);
with pairwise-distinct keys this is exactly `HashMap` lookup. -/
def findHandler {α : Type} (m : List (String × α)) (k : String) : Option α :=
  match m with
  | [] => none
  | (k', v) :: rest => if k' = k then some v else findHandler rest k

/-- The fold inside the `ROUTE_TABLE` `LazyLock` initializer
(`src/service.rs`): insert each entry, and panic — modelled as `Except.error`
with the panic message — when the method name was already present. -/
def buildRouteTableGo {β : Type} (entries : List (RpcServiceEntry β))
    (acc : List (String × RpcHandlerFn β)) :
    Except String (List (String × RpcHandlerFn β)) :=
  match entries with
  | [] => Except.ok acc
  | e :: rest =>
    if containsKey acc e.method then
      Except.error ("Duplicate method registered: " ++ e.method)
    else buildRouteTableGo rest (acc ++ [(e.method, e.handler)])

/-- Construction of `ROUTE_TABLE` from the registered entries
(`RPC_SERVICES`): built exactly once, fatally failing on a duplicate name. -/
def buildRouteTable {β : Type} (entries : List (RpcServiceEntry β)) :
    Except String (List (String × RpcHandlerFn β)) :=
  buildRouteTableGo entries []

/-- The `MethodEnvelope` peek deserializer of `src/service.rs`: only the
top-level `method` field is read; it must be a JSON string occurring exactly
once in a JSON object; every other field is ignored. -/
def peekMethod (j : Json) : Option String :=
  match j with
  | Json.obj fs =>
    if fieldCount fs "method" == 1 then
      match getOpt fs "method" with
      | some (Json.str m) => some m
      | _ => none
    else none
  | _ => none

/-- `dispatch` (`src/service.rs`). `parse : β → Except String Json` stands for
`serde_json`'s text-level parse of the raw buffer (external to the repository;
the error branch carries serde's message). A buffer that parses but has no
unique string `method` field fails the `MethodEnvelope` decode; the exact
serde-generated message of that branch is immaterial to every theorem below
and a fixed stand-in text is used. On a hit the handler gets the original,
un-truncated buffer `body` and its result is returned verbatim. -/
def dispatch {β : Type} (parse : β → Except String Json)
    (table : List (String × RpcHandlerFn β)) (body : β) : Except RpcError String :=
  match parse body with
  | Except.error e => Except.error (RpcError.SerdeError e)
  | Except.ok j =>
    match peekMethod j with
    | none => Except.error (RpcError.SerdeError "invalid method envelope")
    | some m =>
      match findHandler table m with
      | some h => h body
      | none => Except.error RpcError.MethodNotFound

/-- The request struct generated by `#[jsonrpc_service_fn_array]` /
`#[jsonrpc_service_fn_obj]` (`proc-macros/src/lib.rs`): `jsonrpc: String`,
`method: String`, `#[serde(default)] params: Option<..>`, `id: JsonRpcId`.
`P` abstracts the per-method params shape (tuple or named struct). -/
structure HandlerRequest (P : Type) where
  jsonrpc : String
  method : String
  params : Option P
  id : Id

/-- Derived deserialization of the generated request struct: `jsonrpc`,
`method`, `id` required exactly once; `params` optional, with a missing field
or JSON `null` both giving `None`; unknown fields ignored. `decodeP` is the
derived deserializer of the per-method params shape. -/
def decodeHandlerRequest {P : Type} (decodeP : Json → Option P) (j : Json) :
    Option (HandlerRequest P) :=
  match j with
  | Json.obj fs =>
    if fieldCount fs "jsonrpc" == 1 && fieldCount fs "method" == 1 &&
       fieldCount fs "id" == 1 then
      match getOpt fs "jsonrpc", getOpt fs "method",
            decodeOptField fs "params" decodeP, getOpt fs "id" with
      | some (Json.str v), some (Json.str m), some ps, some idj =>
        match idFromJson idj with
        | some i => some { jsonrpc := v, method := m, params := ps, id := i }
        | none => none
      | _, _, _, _ => none
    else none
  | _ => none

/-- The `handle` body generated by `#[jsonrpc_service_fn_array]` for a
function with at least one parameter (`proc-macros/src/lib.rs`): full decode,
version check against the registered version, `params.ok_or(InvalidParams)`,
the business function `f`, then the success envelope reusing the request's
`id` and parsed `jsonrpc`. -/
def handleArray {β P R : Type} (version_val method_val : String)
    (decodeP : Json → Option P) (f : P → Except RpcError R)
    (parse : β → Except String Json) (req : β) :
    Except RpcError (JsonRpcResponse R) :=
  match parse req with
  | Except.error e => Except.error (RpcError.SerdeError e)
  | Except.ok j =>
    match decodeHandlerRequest decodeP j with
    | none => Except.error (RpcError.SerdeError "request deserialize error")
    | some request =>
      if request.jsonrpc ≠ version_val then
        Except.error (RpcError.InvalidJsonRpcVersion
          ("Expected JSON-RPC version " ++ version_val ++ ", got " ++ request.jsonrpc))
      else
        match request.params with
        | none => Except.error (RpcError.InvalidParams
            ("Method '" ++ method_val ++ "' requires array parameters"))
        | some params =>
          match f params with
          | Except.error e => Except.error e
          | Except.ok result =>
            match versionFromStr request.jsonrpc with
            | Except.error e => Except.error e
            | Except.ok ver =>
              Except.ok { jsonrpc := ver, result := some result, error := none,
                          id := request.id }

/-- The `handle` body generated by `#[jsonrpc_service_fn_obj]` for a function
with at least one parameter: identical control flow to the array mode, with
the named-params message text and `parse().map_err(|_| InvalidJsonRpcVersion
(request.jsonrpc))` on the response version. -/
def handleObj {β P R : Type} (version_val method_val : String)
    (decodeP : Json → Option P) (f : P → Except RpcError R)
    (parse : β → Except String Json) (req : β) :
    Except RpcError (JsonRpcResponse R) :=
  match parse req with
  | Except.error e => Except.error (RpcError.SerdeError e)
  | Except.ok j =>
    match decodeHandlerRequest decodeP j with
    | none => Except.error (RpcError.SerdeError "request deserialize error")
    | some request =>
      if request.jsonrpc ≠ version_val then
        Except.error (RpcError.InvalidJsonRpcVersion
          ("Expected JSON-RPC version " ++ version_val ++ ", got " ++ request.jsonrpc))
      else
        match request.params with
        | none => Except.error (RpcError.InvalidParams
            ("Method '" ++ method_val ++ "' requires parameters"))
        | some params =>
          match f params with
          | Except.error e => Except.error e
          | Except.ok result =>
            match versionFromStr request.jsonrpc with
            | Except.error _ =>
              Except.error (RpcError.InvalidJsonRpcVersion request.jsonrpc)
            | Except.ok ver =>
              Except.ok { jsonrpc := ver, result := some result, error := none,
                          id := request.id }

/-- The `handle` body generated for a zero-parameter function (both modes):
the decoded `params` field (`Option<Value>` in array mode) is never consulted
and the business function runs directly. -/
def handleZeroParams {β R : Type} (version_val : String)
    (f : Unit → Except RpcError R) (parse : β → Except String Json) (req : β) :
    Except RpcError (JsonRpcResponse R) :=
  match parse req with
  | Except.error e => Except.error (RpcError.SerdeError e)
  | Except.ok j =>
    match decodeHandlerRequest (fun v => some v) j with
    | none => Except.error (RpcError.SerdeError "request deserialize error")
    | some request =>
      if request.jsonrpc ≠ version_val then
        Except.error (RpcError.InvalidJsonRpcVersion
          ("Expected JSON-RPC version " ++ version_val ++ ", got " ++ request.jsonrpc))
      else
        match f () with
        | Except.error e => Except.error e
        | Except.ok result =>
          match versionFromStr request.jsonrpc with
          | Except.error e => Except.error e
          | Except.ok ver =>
            Except.ok { jsonrpc := ver, result := some result, error := none,
                        id := request.id }

/-- `serde_json::Value::get` on a parsed value: a map lookup on objects,
`None` otherwise. Text with duplicate keys parses into a `Value` map keeping
the last occurrence, hence the reversed-list lookup. -/
def jsonGet (j : Json) (k : String) : Option Json :=
  match j with
  | Json.obj fs => getOpt fs.reverse k
  | _ => none

/-- `response_error` of `examples/echo.rs`: the transport-level error
responder. When the request body re-parses as JSON it echoes the body's `id`
and `jsonrpc` values (defaulting each to JSON `null` when the field is
absent) around `JsonRpcError::from(err)`; when the body is not JSON at all it
returns the hard-coded `{"jsonrpc": null, "error": {"code": -32603, "message":
err.to_string()}, "id": null}` object. -/
def response_error {β : Type} (parse : β → Except String Json) (req_body : β)
    (err : RpcError) : Json :=
  match parse req_body with
  | Except.error _ =>
    Json.obj [("jsonrpc", Json.null),
              ("error", Json.obj [("code", Json.num (-32603)),
                                  ("message", Json.str (rpcErrorToString err))]),
              ("id", Json.null)]
  | Except.ok v =>
    Json.obj [("jsonrpc", (jsonGet v "jsonrpc").getD Json.null),
              ("error", errorToJson (fromRpcError err)),
              ("id", (jsonGet v "id").getD Json.null)]

/-! ## Helper lemmas -/

theorem getOpt_of_fieldCount_zero {α : Type} (fs : List (String × α)) (k : String)
    (h : fieldCount fs k = 0) : getOpt fs k = none := by
  induction fs with
  | nil => rfl
  | cons f rest ih =>
    obtain ⟨k', v⟩ := f
    by_cases hk : k' = k
    · simp [fieldCount, List.filter_cons, hk] at h
    · simp only [getOpt, if_neg hk]
      exact ih (by simpa [fieldCount, List.filter_cons, hk] using h)

theorem runCalls_length (fs : List IdFlavor) (s : Nat) :
    (runCalls fs s).length = fs.length := by
  induction fs generalizing s with
  | nil => rfl
  | cons f rest ih => simp [runCalls, ih]

theorem nextIdCall_snd (f : IdFlavor) (s : Nat) : (nextIdCall f s).2 = s + 1 := by
  cases f <;> rfl

theorem runCalls_get (fs : List IdFlavor) (s : Nat) (k : Nat) (hk : k < fs.length)
    (hk' : k < (runCalls fs s).length) :
    (runCalls fs s).get ⟨k, hk'⟩ = (nextIdCall (fs.get ⟨k, hk⟩) (s + k)).1 := by
  induction fs generalizing s k with
  | nil => exact absurd hk (by simp)
  | cons f rest ih =>
    cases k with
    | zero => rfl
    | succ k =>
      have h1 : k < rest.length := by simpa using hk
      have h2 : k < (runCalls rest (nextIdCall f s).2).length := by
        simpa [runCalls_length] using h1
      have step : (runCalls (f :: rest) s).get ⟨k + 1, hk'⟩ =
          (runCalls rest (nextIdCall f s).2).get ⟨k, h2⟩ := rfl
      rw [step, ih (nextIdCall f s).2 k h1 h2, nextIdCall_snd]
      have harith : s + 1 + k = s + (k + 1) := by omega
      rw [harith]
      rfl

theorem containsKey_eq_false_iff {α : Type} (m : List (String × α)) (k : String) :
    containsKey m k = false ↔ k ∉ m.map Prod.fst := by
  induction m with
  | nil => simp [containsKey]
  | cons p rest ih =>
    obtain ⟨a, b⟩ := p
    simp only [containsKey, List.any_cons, Bool.or_eq_false_iff,
      decide_eq_false_iff_not, List.map_cons, List.mem_cons, not_or] at *
    constructor
    · rintro ⟨h1, h2⟩
      exact ⟨fun hka => h1 hka.symm, ih.mp h2⟩
    · rintro ⟨h1, h2⟩
      exact ⟨fun hak => h1 hak.symm, ih.mpr h2⟩

theorem buildGo_ok_eq {β : Type} (entries : List (RpcServiceEntry β))
    (acc : List (String × RpcHandlerFn β)) (t : List (String × RpcHandlerFn β))
    (h : buildRouteTableGo entries acc = Except.ok t) :
    t = acc ++ entries.map (fun e => (e.method, e.handler)) := by
  induction entries generalizing acc with
  | nil =>
    simp only [buildRouteTableGo, Except.ok.injEq] at h
    simp [h.symm]
  | cons e rest ih =>
    rw [buildRouteTableGo] at h
    split at h
    · exact absurd h (by simp)
    · have := ih _ h
      simpa [List.append_assoc] using this

theorem buildGo_ok_of_nodup {β : Type} (entries : List (RpcServiceEntry β))
    (acc : List (String × RpcHandlerFn β))
    (h : ((acc.map Prod.fst) ++ entries.map (fun e => e.method)).Nodup) :
    ∃ t, buildRouteTableGo entries acc = Except.ok t := by
  induction entries generalizing acc with
  | nil => exact ⟨acc, rfl⟩
  | cons e rest ih =>
    have hdisj := (List.nodup_append.mp h).2.2
    have hhead : e.method ∉ acc.map Prod.fst := fun hin => hdisj hin (by simp)
    have hcb : containsKey acc e.method = false :=
      (containsKey_eq_false_iff acc e.method).mpr hhead
    rw [buildRouteTableGo, hcb]
    simp only [Bool.false_eq_true, if_false]
    apply ih
    have hgoal : List.map Prod.fst (acc ++ [(e.method, e.handler)]) ++
        rest.map (fun e => e.method) =
        acc.map Prod.fst ++ (e :: rest).map (fun e => e.method) := by
      simp [List.append_assoc]
    rw [hgoal]
    exact h

theorem buildGo_error_of_not_nodup {β : Type} (entries : List (RpcServiceEntry β))
    (acc : List (String × RpcHandlerFn β))
    (hacc : (acc.map Prod.fst).Nodup)
    (h : ¬ ((acc.map Prod.fst) ++ entries.map (fun e => e.method)).Nodup) :
    ∃ msg, buildRouteTableGo entries acc = Except.error msg := by
  induction entries generalizing acc with
  | nil => simp at h; exact absurd hacc h
  | cons e rest ih =>
    cases hcb : containsKey acc e.method with
    | true => exact ⟨"Duplicate method registered: " ++ e.method, by
        rw [buildRouteTableGo, hcb]; rfl⟩
    | false =>
      have hhead : e.method ∉ acc.map Prod.fst :=
        (containsKey_eq_false_iff acc e.method).mp hcb
      rw [buildRouteTableGo, hcb]
      simp only [Bool.false_eq_true, if_false]
      apply ih
      · simp only [List.map_append, List.map_cons, List.map_nil]
        rw [List.nodup_append]
        refine ⟨hacc, List.nodup_singleton _, ?_⟩
        intro a ha hb
        simp only [List.mem_singleton] at hb
        subst hb
        exact hhead ha
      · intro hnd
        apply h
        have hgoal : List.map Prod.fst (acc ++ [(e.method, e.handler)]) ++
            rest.map (fun e => e.method) =
            acc.map Prod.fst ++ (e :: rest).map (fun e => e.method) := by
          simp [List.append_assoc]
        rw [hgoal] at hnd
        exact hnd

theorem findHandler_of_nodup_mem {α : Type} (l : List (String × α)) (k : String) (v : α)
    (hnd : (l.map Prod.fst).Nodup) (hmem : (k, v) ∈ l) :
    findHandler l k = some v := by
  induction l with
  | nil => cases hmem
  | cons p rest ih =>
    obtain ⟨k', v'⟩ := p
    have hnd' : k' ∉ rest.map Prod.fst ∧ (rest.map Prod.fst).Nodup := by
      rw [List.map_cons, List.nodup_cons] at hnd
      exact hnd
    rcases List.mem_cons.mp hmem with heq | hr
    · obtain ⟨h1, h2⟩ := (Prod.mk.injEq k v k' v').mp heq
      subst h1
      subst h2
      simp [findHandler]
    · by_cases hk : k' = k
      · exfalso
        apply hnd'.1
        rw [hk]
        exact List.mem_map_of_mem Prod.fst hr
      · simp only [findHandler, if_neg hk]
        exact ih hnd'.2 hr

theorem versionFromStr_toString {s : String} {v : JsonRpcVersion}
    (h : versionFromStr s = Except.ok v) : versionToString v = s := by
  unfold versionFromStr at h
  split at h
  · injection h with h'
    subst h'
    rfl
  · injection h with h'
    subst h'
    rfl
  · exact absurd h (by simp)

theorem handleArray_ok_shape {β P R : Type} {v m : String} {dP : Json → Option P}
    {f : P → Except RpcError R} {parse : β → Except String Json} {req : β}
    {resp : JsonRpcResponse R}
    (h : handleArray v m dP f parse req = Except.ok resp) :
    ∃ j request result ver, parse req = Except.ok j ∧
      decodeHandlerRequest dP j = some request ∧
      versionFromStr request.jsonrpc = Except.ok ver ∧
      resp = { jsonrpc := ver, result := some result, error := none,
               id := request.id } := by
  unfold handleArray at h
  split at h
  · exact absurd h (by simp)
  rename_i j hj
  split at h
  · exact absurd h (by simp)
  rename_i request hreq
  split at h
  · exact absurd h (by simp)
  split at h
  · exact absurd h (by simp)
  rename_i params hparams
  split at h
  · exact absurd h (by simp)
  rename_i result hres
  split at h
  · exact absurd h (by simp)
  rename_i ver hverok
  injection h with h'
  exact ⟨j, request, result, ver, hj, hreq, hverok, h'.symm⟩

theorem handleObj_ok_shape {β P R : Type} {v m : String} {dP : Json → Option P}
    {f : P → Except RpcError R} {parse : β → Except String Json} {req : β}
    {resp : JsonRpcResponse R}
    (h : handleObj v m dP f parse req = Except.ok resp) :
    ∃ j request result ver, parse req = Except.ok j ∧
      decodeHandlerRequest dP j = some request ∧
      versionFromStr request.jsonrpc = Except.ok ver ∧
      resp = { jsonrpc := ver, result := some result, error := none,
               id := request.id } := by
  unfold handleObj at h
  split at h
  · exact absurd h (by simp)
  rename_i j hj
  split at h
  · exact absurd h (by simp)
  rename_i request hreq
  split at h
  · exact absurd h (by simp)
  split at h
  · exact absurd h (by simp)
  rename_i params hparams
  split at h
  · exact absurd h (by simp)
  rename_i result hres
  split at h
  · exact absurd h (by simp)
  rename_i ver hverok
  injection h with h'
  exact ⟨j, request, result, ver, hj, hreq, hverok, h'.symm⟩

theorem handleZeroParams_ok_shape {β R : Type} {v : String}
    {f : Unit → Except RpcError R} {parse : β → Except String Json} {req : β}
    {resp : JsonRpcResponse R}
    (h : handleZeroParams v f parse req = Except.ok resp) :
    ∃ j request result ver, parse req = Except.ok j ∧
      decodeHandlerRequest (fun x => some x) j = some request ∧
      versionFromStr request.jsonrpc = Except.ok ver ∧
      resp = { jsonrpc := ver, result := some result, error := none,
               id := request.id } := by
  unfold handleZeroParams at h
  split at h
  · exact absurd h (by simp)
  rename_i j hj
  split at h
  · exact absurd h (by simp)
  rename_i request hreq
  split at h
  · exact absurd h (by simp)
  split at h
  · exact absurd h (by simp)
  rename_i result hres
  split at h
  · exact absurd h (by simp)
  rename_i ver hverok
  injection h with h'
  exact ⟨j, request, result, ver, hj, hreq, hverok, h'.symm⟩

theorem removeField_cons_drop (a : String) (b : Json) (rest : List (String × Json))
    (k : String) (hak : a = k) :
    removeField ((a, b) :: rest) k = removeField rest k := by
  simp [removeField, List.filter_cons, hak]

theorem removeField_cons_keep (a : String) (b : Json) (rest : List (String × Json))
    (k : String) (hak : ¬ a = k) :
    removeField ((a, b) :: rest) k = (a, b) :: removeField rest k := by
  simp [removeField, List.filter_cons, hak]

theorem fieldCount_cons_eq {α : Type} (a : String) (b : α) (l : List (String × α))
    (k : String) (hak : a = k) : fieldCount ((a, b) :: l) k = fieldCount l k + 1 := by
  simp [fieldCount, List.filter_cons, hak]

theorem fieldCount_cons_ne {α : Type} (a : String) (b : α) (l : List (String × α))
    (k : String) (hak : ¬ a = k) : fieldCount ((a, b) :: l) k = fieldCount l k := by
  simp [fieldCount, List.filter_cons, hak]

theorem getOpt_cons_eq {α : Type} (a : String) (b : α) (l : List (String × α))
    (k : String) (hak : a = k) : getOpt ((a, b) :: l) k = some b := by
  simp [getOpt, hak]

theorem getOpt_cons_ne {α : Type} (a : String) (b : α) (l : List (String × α))
    (k : String) (hak : ¬ a = k) : getOpt ((a, b) :: l) k = getOpt l k := by
  simp [getOpt, hak]

theorem fieldCount_removeField_ne (fs : List (String × Json)) (k k' : String)
    (h : k' ≠ k) : fieldCount (removeField fs k) k' = fieldCount fs k' := by
  induction fs with
  | nil => rfl
  | cons p rest ih =>
    obtain ⟨a, b⟩ := p
    by_cases hak : a = k
    · have hak' : ¬ a = k' := fun hh => h (hh.symm.trans hak)
      rw [removeField_cons_drop a b rest k hak, ih,
        fieldCount_cons_ne a b rest k' hak']
    · rw [removeField_cons_keep a b rest k hak]
      by_cases hak' : a = k'
      · rw [fieldCount_cons_eq a b (removeField rest k) k' hak',
          fieldCount_cons_eq a b rest k' hak', ih]
      · rw [fieldCount_cons_ne a b (removeField rest k) k' hak',
          fieldCount_cons_ne a b rest k' hak', ih]

theorem getOpt_removeField_ne (fs : List (String × Json)) (k k' : String)
    (h : k' ≠ k) : getOpt (removeField fs k) k' = getOpt fs k' := by
  induction fs with
  | nil => rfl
  | cons p rest ih =>
    obtain ⟨a, b⟩ := p
    by_cases hak : a = k
    · have hak' : ¬ a = k' := fun hh => h (hh.symm.trans hak)
      rw [removeField_cons_drop a b rest k hak, ih,
        getOpt_cons_ne a b rest k' hak']
    · rw [removeField_cons_keep a b rest k hak]
      by_cases hak' : a = k'
      · rw [getOpt_cons_eq a b (removeField rest k) k' hak',
          getOpt_cons_eq a b rest k' hak']
      · rw [getOpt_cons_ne a b (removeField rest k) k' hak',
          getOpt_cons_ne a b rest k' hak', ih]

theorem fieldCount_removeField_self (fs : List (String × Json)) (k : String) :
    fieldCount (removeField fs k) k = 0 := by
  induction fs with
  | nil => rfl
  | cons p rest ih =>
    obtain ⟨a, b⟩ := p
    by_cases hak : a = k
    · rw [removeField_cons_drop a b rest k hak]
      exact ih
    · rw [removeField_cons_keep a b rest k hak,
        fieldCount_cons_ne a b (removeField rest k) k hak]
      exact ih

theorem decodeOptField_null {T : Type} (fs : List (String × Json)) (k : String)
    (dT : Json → Option T) (hc : fieldCount fs k = 1)
    (hg : getOpt fs k = some Json.null) : decodeOptField fs k dT = some none := by
  simp [decodeOptField, hc, hg]

theorem decodeOptField_of_count_zero {T : Type} (fs : List (String × Json))
    (k : String) (dT : Json → Option T) (hc : fieldCount fs k = 0) :
    decodeOptField fs k dT = some none := by
  simp [decodeOptField, hc, getOpt_of_fieldCount_zero fs k hc]

theorem decodeHandlerRequest_null_vs_removed {P : Type} (dP : Json → Option P)
    (fs : List (String × Json)) (hc : fieldCount fs "params" = 1)
    (hg : getOpt fs "params" = some Json.null) :
    decodeHandlerRequest dP (Json.obj fs) =
      decodeHandlerRequest dP (Json.obj (removeField fs "params")) := by
  simp only [decodeHandlerRequest]
  rw [fieldCount_removeField_ne fs "params" "jsonrpc" (by decide),
    fieldCount_removeField_ne fs "params" "method" (by decide),
    fieldCount_removeField_ne fs "params" "id" (by decide),
    getOpt_removeField_ne fs "params" "jsonrpc" (by decide),
    getOpt_removeField_ne fs "params" "method" (by decide),
    getOpt_removeField_ne fs "params" "id" (by decide),
    decodeOptField_null fs "params" dP hc hg,
    decodeOptField_of_count_zero (removeField fs "params") "params" dP
      (fieldCount_removeField_self fs "params")]

theorem decodeHandlerRequest_params_none {P : Type} (dP : Json → Option P)
    (fs : List (String × Json)) (request : HandlerRequest P)
    (hc : fieldCount fs "params" = 1) (hg : getOpt fs "params" = some Json.null)
    (hdec : decodeHandlerRequest dP (Json.obj fs) = some request) :
    request.params = none := by
  simp only [decodeHandlerRequest] at hdec
  rw [decodeOptField_null fs "params" dP hc hg] at hdec
  split at hdec <;> try exact Option.noConfusion hdec
  split at hdec <;> try exact Option.noConfusion hdec
  split at hdec <;> try exact Option.noConfusion hdec
  rename_i x4 x3 x2 x1 v m ps idj h1 h2 h3 h4 x i hi
  injection h3 with hps
  injection hdec with h'
  rw [← h']
  exact hps.symm

/-! ## Claim theorems -/

/-- C4: the conversion from internal errors to the wire error object is total
and deterministic (it is the Lean function `fromRpcError`, and this theorem
enumerates every constructor of the closed `RpcError` taxonomy) and produces
exactly the pinned codes and messages: I/O -> -32000, HTTP -> -32001,
serialization -> -32002 (message = underlying description), CustomError ->
-32003, InvalidVersion(text) -> -32600 with "Invalid JSON-RPC version:
{text}", MethodNotFound -> -32601 with "method not found", and
InvalidParams(text) -> -32602 with "Invalid parameters: {text}". -/
theorem c4_error_taxonomy_wire_mapping :
    (∀ m : String, fromRpcError (RpcError.IoError m) =
      { code := -32000, message := m, data := none }) ∧
    (∀ m : String, fromRpcError (RpcError.ReqwestError m) =
      { code := -32001, message := m, data := none }) ∧
    (∀ m : String, fromRpcError (RpcError.SerdeError m) =
      { code := -32002, message := m, data := none }) ∧
    (∀ m : String, fromRpcError (RpcError.CustomError m) =
      { code := -32003, message := m, data := none }) ∧
    (∀ v : String, fromRpcError (RpcError.InvalidJsonRpcVersion v) =
      { code := -32600, message := "Invalid JSON-RPC version: " ++ v, data := none }) ∧
    (fromRpcError RpcError.MethodNotFound =
      { code := -32601, message := "method not found", data := none }) ∧
    (∀ m : String, fromRpcError (RpcError.InvalidParams m) =
      { code := -32602, message := "Invalid parameters: " ++ m, data := none }) :=
  ⟨fun _ => rfl, fun _ => rfl, fun _ => rfl, fun _ => rfl, fun _ => rfl, rfl, fun _ => rfl⟩

/-- C9: `next_number` and `next_string` draw from the one shared counter
starting at `ATOMIC_U64_ID_INIT = 1`: in any sequence of calls mixing the two
flavors, the k-th call (0-based) returns the post-increment counter value
`1 + k`, as `Number (1 + k)` or `String ("id-" ++ toString (1 + k))`
respectively — so the underlying counter values are strictly increasing and
pairwise distinct, with both flavors interleaved in the one global order. -/
theorem c9_shared_counter_id_generator (fs : List IdFlavor) :
    (runCalls fs ATOMIC_U64_ID_INIT).length = fs.length ∧
    ∀ (k : Nat) (hk : k < fs.length)
      (hk' : k < (runCalls fs ATOMIC_U64_ID_INIT).length),
      (runCalls fs ATOMIC_U64_ID_INIT).get ⟨k, hk'⟩ =
        match fs.get ⟨k, hk⟩ with
        | IdFlavor.number => Id.Number (ATOMIC_U64_ID_INIT + k)
        | IdFlavor.string => Id.String ("id-" ++ toString (ATOMIC_U64_ID_INIT + k)) := by
  refine ⟨runCalls_length fs ATOMIC_U64_ID_INIT, fun k hk hk' => ?_⟩
  rw [runCalls_get fs ATOMIC_U64_ID_INIT k hk hk']
  cases fs.get ⟨k, hk⟩ <;> rfl

/-- Witness for C9 at the concrete call sequence `[number, string]`: the
second call returns `String "id-2"`. -/
theorem c9_shared_counter_id_generator_witness :
    (runCalls [IdFlavor.number, IdFlavor.string] ATOMIC_U64_ID_INIT).get ⟨1, by decide⟩ =
      Id.String "id-2" := by
  have h := (c9_shared_counter_id_generator [IdFlavor.number, IdFlavor.string]).2
    1 (by decide) (by decide)
  exact h.trans (by decide)

/-- C2: for every input buffer that parses as a JSON object whose (unique)
string `method` field is not a registered name, `dispatch` returns
`MethodNotFound`, whose wire conversion is code -32601 with the fixed message
"method not found". -/
theorem c2_dispatch_method_not_found {β : Type} (parse : β → Except String Json)
    (table : List (String × RpcHandlerFn β)) (body : β)
    (fs : List (String × Json)) (m : String)
    (hparse : parse body = Except.ok (Json.obj fs))
    (hcount : fieldCount fs "method" = 1)
    (hget : getOpt fs "method" = some (Json.str m))
    (hmiss : findHandler table m = none) :
    dispatch parse table body = Except.error RpcError.MethodNotFound ∧
    fromRpcError RpcError.MethodNotFound =
      { code := -32601, message := "method not found", data := none } := by
  refine ⟨?_, rfl⟩
  simp [dispatch, hparse, peekMethod, hcount, hget, hmiss]

/-- Witness for C2: a `ping` request against an empty route table. -/
theorem c2_dispatch_method_not_found_witness :
    dispatch (fun _ : Unit => Except.ok (Json.obj
        [("jsonrpc", Json.str "2.0"), ("method", Json.str "ping"), ("id", Json.num 1)]))
      [] () = Except.error RpcError.MethodNotFound :=
  (c2_dispatch_method_not_found
    (fun _ : Unit => Except.ok (Json.obj
      [("jsonrpc", Json.str "2.0"), ("method", Json.str "ping"), ("id", Json.num 1)]))
    [] ()
    [("jsonrpc", Json.str "2.0"), ("method", Json.str "ping"), ("id", Json.num 1)]
    "ping" rfl (by decide) rfl rfl).1

/-- C3: building the route table from entries containing a duplicated method
name fails fatally (the `LazyLock` initializer panics, modelled as
`Except.error` with the panic message) instead of silently keeping one of the
colliding handlers; with pairwise-distinct names the build succeeds and the
resulting table maps each registered name to its handler. -/
theorem c3_route_table_duplicates_fatal {β : Type} (entries : List (RpcServiceEntry β)) :
    (¬ (entries.map (fun e => e.method)).Nodup →
      ∃ msg, buildRouteTable entries = Except.error msg) ∧
    ((entries.map (fun e => e.method)).Nodup →
      ∃ table, buildRouteTable entries = Except.ok table ∧
        ∀ e ∈ entries, findHandler table e.method = some e.handler) := by
  constructor
  · intro hdup
    exact buildGo_error_of_not_nodup entries [] (by simp) (by simpa using hdup)
  · intro hnd
    obtain ⟨t, ht⟩ := buildGo_ok_of_nodup entries [] (by simpa using hnd)
    refine ⟨t, ht, ?_⟩
    have heq := buildGo_ok_eq entries [] t ht
    simp only [List.nil_append] at heq
    subst heq
    intro e he
    apply findHandler_of_nodup_mem
    · rw [List.map_map]
      simpa [Function.comp] using hnd
    · exact List.mem_map_of_mem (fun e => (e.method, e.handler)) he

/-- Witness for C3: a duplicated `"a"` registration fails the build; the
distinct pair `"a"`, `"b"` builds a table routing both names. -/
theorem c3_route_table_duplicates_fatal_witness :
    (∃ msg, buildRouteTable (β := Unit)
      [⟨"a", fun _ => Except.ok "1"⟩, ⟨"a", fun _ => Except.ok "2"⟩] =
        Except.error msg) ∧
    (∃ table, buildRouteTable (β := Unit)
      [⟨"a", fun _ => Except.ok "1"⟩, ⟨"b", fun _ => Except.ok "2"⟩] =
        Except.ok table ∧
      ∀ e ∈ [(⟨"a", fun _ => Except.ok "1"⟩ : RpcServiceEntry Unit),
             ⟨"b", fun _ => Except.ok "2"⟩],
        findHandler table e.method = some e.handler) :=
  ⟨(c3_route_table_duplicates_fatal
      [⟨"a", fun _ => Except.ok "1"⟩, ⟨"a", fun _ => Except.ok "2"⟩]).1 (by decide),
   (c3_route_table_duplicates_fatal
      [⟨"a", fun _ => Except.ok "1"⟩, ⟨"b", fun _ => Except.ok "2"⟩]).2 (by decide)⟩

/-- C1: with pairwise-distinct registered names, for every input buffer that
parses as a JSON object whose (unique) string `method` field equals the
registered name `m`, `dispatch` invokes exactly the handler registered for
`m`, passes it the original, un-truncated input buffer `body`, and returns
that handler's result verbatim (`h body`, errors propagated); no other
handler can contribute to the result. -/
theorem c1_dispatch_routes_to_registered_handler {β : Type}
    (parse : β → Except String Json) (entries : List (RpcServiceEntry β))
    (table : List (String × RpcHandlerFn β)) (body : β)
    (fs : List (String × Json)) (m : String) (h : RpcHandlerFn β)
    (hnodup : (entries.map (fun e => e.method)).Nodup)
    (hbuild : buildRouteTable entries = Except.ok table)
    (hmem : (⟨m, h⟩ : RpcServiceEntry β) ∈ entries)
    (hparse : parse body = Except.ok (Json.obj fs))
    (hcount : fieldCount fs "method" = 1)
    (hget : getOpt fs "method" = some (Json.str m)) :
    dispatch parse table body = h body := by
  have htable := buildGo_ok_eq entries [] table hbuild
  simp only [List.nil_append] at htable
  subst htable
  have hfind : findHandler (entries.map (fun e => (e.method, e.handler))) m = some h := by
    apply findHandler_of_nodup_mem
    · rw [List.map_map]
      simpa [Function.comp] using hnodup
    · exact List.mem_map_of_mem (fun e => (e.method, e.handler)) hmem
  simp [dispatch, hparse, peekMethod, hcount, hget, hfind]

/-- Witness for C1: two registered handlers; an `echoArray` request is routed
to the first handler's verbatim output. -/
theorem c1_dispatch_routes_to_registered_handler_witness :
    dispatch (fun _ : Unit => Except.ok (Json.obj
        [("jsonrpc", Json.str "2.0"), ("method", Json.str "echoArray"), ("id", Json.num 1)]))
      [("echoArray", fun _ => Except.ok "one"), ("other", fun _ => Except.ok "two")]
      () = Except.ok "one" := by
  have h := c1_dispatch_routes_to_registered_handler
    (fun _ : Unit => Except.ok (Json.obj
      [("jsonrpc", Json.str "2.0"), ("method", Json.str "echoArray"), ("id", Json.num 1)]))
    [⟨"echoArray", fun _ => Except.ok "one"⟩, ⟨"other", fun _ => Except.ok "two"⟩]
    [("echoArray", fun _ => Except.ok "one"), ("other", fun _ => Except.ok "two")]
    ()
    [("jsonrpc", Json.str "2.0"), ("method", Json.str "echoArray"), ("id", Json.num 1)]
    "echoArray" (fun _ => Except.ok "one")
    (by decide) rfl (List.mem_cons_self _ _) rfl (by decide) rfl
  exact h

/-- C5: for every request a handler can fully deserialize, the success
response carries `id` equal to the request's `id` and a `jsonrpc` that
serializes back to the request's `jsonrpc` string (all three generated
handler shapes); and on the transport error path, when the request body was
otherwise parseable, `response_error` echoes the body's `id` and `jsonrpc`
values into the error response. -/
theorem c5_response_echoes_id_and_version :
    (∀ (β P R : Type) (v m : String) (dP : Json → Option P)
       (f : P → Except RpcError R) (parse : β → Except String Json) (req : β)
       (j : Json) (request : HandlerRequest P) (resp : JsonRpcResponse R),
       parse req = Except.ok j → decodeHandlerRequest dP j = some request →
       handleArray v m dP f parse req = Except.ok resp →
       resp.id = request.id ∧ versionToString resp.jsonrpc = request.jsonrpc) ∧
    (∀ (β P R : Type) (v m : String) (dP : Json → Option P)
       (f : P → Except RpcError R) (parse : β → Except String Json) (req : β)
       (j : Json) (request : HandlerRequest P) (resp : JsonRpcResponse R),
       parse req = Except.ok j → decodeHandlerRequest dP j = some request →
       handleObj v m dP f parse req = Except.ok resp →
       resp.id = request.id ∧ versionToString resp.jsonrpc = request.jsonrpc) ∧
    (∀ (β R : Type) (v : String) (f : Unit → Except RpcError R)
       (parse : β → Except String Json) (req : β)
       (j : Json) (request : HandlerRequest Json) (resp : JsonRpcResponse R),
       parse req = Except.ok j →
       decodeHandlerRequest (fun x => some x) j = some request →
       handleZeroParams v f parse req = Except.ok resp →
       resp.id = request.id ∧ versionToString resp.jsonrpc = request.jsonrpc) ∧
    (∀ (β : Type) (parse : β → Except String Json) (body : β) (err : RpcError)
       (j i vj : Json),
       parse body = Except.ok j → jsonGet j "id" = some i →
       jsonGet j "jsonrpc" = some vj →
       jsonGet (response_error parse body err) "id" = some i ∧
       jsonGet (response_error parse body err) "jsonrpc" = some vj) := by
  refine ⟨?_, ?_, ?_, ?_⟩
  · intro β P R v m dP f parse req j request resp hparse hdec hok
    obtain ⟨j', request', result, ver, hj', hreq', hverok, hresp⟩ :=
      handleArray_ok_shape hok
    rw [hparse] at hj'
    injection hj' with hj''
    subst hj''
    rw [hdec] at hreq'
    injection hreq' with hreq''
    subst hreq''
    subst hresp
    exact ⟨rfl, versionFromStr_toString hverok⟩
  · intro β P R v m dP f parse req j request resp hparse hdec hok
    obtain ⟨j', request', result, ver, hj', hreq', hverok, hresp⟩ :=
      handleObj_ok_shape hok
    rw [hparse] at hj'
    injection hj' with hj''
    subst hj''
    rw [hdec] at hreq'
    injection hreq' with hreq''
    subst hreq''
    subst hresp
    exact ⟨rfl, versionFromStr_toString hverok⟩
  · intro β R v f parse req j request resp hparse hdec hok
    obtain ⟨j', request', result, ver, hj', hreq', hverok, hresp⟩ :=
      handleZeroParams_ok_shape hok
    rw [hparse] at hj'
    injection hj' with hj''
    subst hj''
    rw [hdec] at hreq'
    injection hreq' with hreq''
    subst hreq''
    subst hresp
    exact ⟨rfl, versionFromStr_toString hverok⟩
  · intro β parse body err j i vj hparse hid hvj
    simp only [response_error, hparse, hid, hvj, Option.getD_some]
    exact ⟨rfl, rfl⟩

/-- Witness for C5: a concrete `echoArray`-style request through
`handleArray`, and a parseable body through `response_error`. -/
theorem c5_response_echoes_id_and_version_witness :
    ((⟨JsonRpcVersion.V2_0, some (Json.arr [Json.str "hi"]), none,
        Id.Number 2⟩ : JsonRpcResponse Json).id =
      (⟨"2.0", "echoArray", some (Json.arr [Json.str "hi"]),
        Id.Number 2⟩ : HandlerRequest Json).id ∧
     versionToString (⟨JsonRpcVersion.V2_0, some (Json.arr [Json.str "hi"]), none,
        Id.Number 2⟩ : JsonRpcResponse Json).jsonrpc =
      (⟨"2.0", "echoArray", some (Json.arr [Json.str "hi"]),
        Id.Number 2⟩ : HandlerRequest Json).jsonrpc) ∧
    (jsonGet (response_error
        (fun _ : Unit => Except.ok (Json.obj [("jsonrpc", Json.str "2.0"),
          ("method", Json.str "nope"), ("id", Json.num 2)]))
        () RpcError.MethodNotFound) "id" = some (Json.num 2)) := by
  constructor
  · exact c5_response_echoes_id_and_version.1 Unit Json Json "2.0" "echoArray"
      (fun x => some x) (fun p => Except.ok p)
      (fun _ => Except.ok (Json.obj [("jsonrpc", Json.str "2.0"),
        ("method", Json.str "echoArray"),
        ("params", Json.arr [Json.str "hi"]), ("id", Json.num 2)]))
      ()
      (Json.obj [("jsonrpc", Json.str "2.0"), ("method", Json.str "echoArray"),
        ("params", Json.arr [Json.str "hi"]), ("id", Json.num 2)])
      ⟨"2.0", "echoArray", some (Json.arr [Json.str "hi"]), Id.Number 2⟩
      ⟨JsonRpcVersion.V2_0, some (Json.arr [Json.str "hi"]), none, Id.Number 2⟩
      rfl rfl rfl
  · exact (c5_response_echoes_id_and_version.2.2.2 Unit
      (fun _ => Except.ok (Json.obj [("jsonrpc", Json.str "2.0"),
        ("method", Json.str "nope"), ("id", Json.num 2)]))
      () RpcError.MethodNotFound
      (Json.obj [("jsonrpc", Json.str "2.0"), ("method", Json.str "nope"),
        ("id", Json.num 2)])
      (Json.num 2) (Json.str "2.0") rfl rfl rfl).1

/-- C6: every response produced by any call path, when serialized, contains
exactly one of `result` and `error`: handler success responses (all three
generated shapes) serialize with `result` and without `error`; transport
error responses from `response_error` serialize with `error` and without
`result`. -/
theorem c6_result_error_wire_exclusive :
    (∀ (β P R : Type) (v m : String) (dP : Json → Option P)
       (f : P → Except RpcError R) (parse : β → Except String Json) (req : β)
       (resp : JsonRpcResponse R) (encodeR : R → Json),
       handleArray v m dP f parse req = Except.ok resp →
       hasField (respToJson encodeR resp) "result" = true ∧
       hasField (respToJson encodeR resp) "error" = false) ∧
    (∀ (β P R : Type) (v m : String) (dP : Json → Option P)
       (f : P → Except RpcError R) (parse : β → Except String Json) (req : β)
       (resp : JsonRpcResponse R) (encodeR : R → Json),
       handleObj v m dP f parse req = Except.ok resp →
       hasField (respToJson encodeR resp) "result" = true ∧
       hasField (respToJson encodeR resp) "error" = false) ∧
    (∀ (β R : Type) (v : String) (f : Unit → Except RpcError R)
       (parse : β → Except String Json) (req : β)
       (resp : JsonRpcResponse R) (encodeR : R → Json),
       handleZeroParams v f parse req = Except.ok resp →
       hasField (respToJson encodeR resp) "result" = true ∧
       hasField (respToJson encodeR resp) "error" = false) ∧
    (∀ (β : Type) (parse : β → Except String Json) (body : β) (err : RpcError),
       hasField (response_error parse body err) "error" = true ∧
       hasField (response_error parse body err) "result" = false) := by
  refine ⟨?_, ?_, ?_, ?_⟩
  · intro β P R v m dP f parse req resp encodeR hok
    obtain ⟨j, request, result, ver, _, _, _, hresp⟩ := handleArray_ok_shape hok
    subst hresp
    exact ⟨rfl, rfl⟩
  · intro β P R v m dP f parse req resp encodeR hok
    obtain ⟨j, request, result, ver, _, _, _, hresp⟩ := handleObj_ok_shape hok
    subst hresp
    exact ⟨rfl, rfl⟩
  · intro β R v f parse req resp encodeR hok
    obtain ⟨j, request, result, ver, _, _, _, hresp⟩ := handleZeroParams_ok_shape hok
    subst hresp
    exact ⟨rfl, rfl⟩
  · intro β parse body err
    cases hp : parse body <;> simp only [response_error, hp] <;> exact ⟨rfl, rfl⟩

/-- Witness for C6: a concrete successful `handleArray` run serializes with
`result` only. -/
theorem c6_result_error_wire_exclusive_witness :
    hasField (respToJson (fun x => x)
      (⟨JsonRpcVersion.V2_0, some (Json.str "pong"), none,
        Id.Number 1⟩ : JsonRpcResponse Json)) "result" = true ∧
    hasField (respToJson (fun x => x)
      (⟨JsonRpcVersion.V2_0, some (Json.str "pong"), none,
        Id.Number 1⟩ : JsonRpcResponse Json)) "error" = false :=
  c6_result_error_wire_exclusive.1 Unit Json Json "2.0" "echoArray"
    (fun x => some x) (fun _ => Except.ok (Json.str "pong"))
    (fun _ => Except.ok (Json.obj [("jsonrpc", Json.str "2.0"),
      ("method", Json.str "echoArray"),
      ("params", Json.arr [Json.str "hi"]), ("id", Json.num 1)]))
    ()
    ⟨JsonRpcVersion.V2_0, some (Json.str "pong"), none, Id.Number 1⟩
    (fun x => x) rfl

/-- C10: for both generated handler shapes with at least one parameter, an
inbound request whose `params` field is the JSON literal `null` behaves
exactly like the same request with `params` absent; and on an otherwise
decodable, version-matching request it fails with `InvalidParams` (wire code
-32602), never with a serialization error. -/
theorem c10_null_params_treated_as_absent :
    (∀ (β P R : Type) (v m : String) (dP : Json → Option P)
       (f : P → Except RpcError R) (parse : β → Except String Json)
       (body₁ body₂ : β) (fs : List (String × Json)),
       parse body₁ = Except.ok (Json.obj fs) →
       fieldCount fs "params" = 1 → getOpt fs "params" = some Json.null →
       parse body₂ = Except.ok (Json.obj (removeField fs "params")) →
       handleArray v m dP f parse body₁ = handleArray v m dP f parse body₂ ∧
       handleObj v m dP f parse body₁ = handleObj v m dP f parse body₂) ∧
    (∀ (β P R : Type) (v m : String) (dP : Json → Option P)
       (f : P → Except RpcError R) (parse : β → Except String Json)
       (body : β) (fs : List (String × Json)) (request : HandlerRequest P),
       parse body = Except.ok (Json.obj fs) →
       fieldCount fs "params" = 1 → getOpt fs "params" = some Json.null →
       decodeHandlerRequest dP (Json.obj fs) = some request →
       request.jsonrpc = v →
       handleArray v m dP f parse body = Except.error (RpcError.InvalidParams
         ("Method '" ++ m ++ "' requires array parameters")) ∧
       handleObj v m dP f parse body = Except.error (RpcError.InvalidParams
         ("Method '" ++ m ++ "' requires parameters")) ∧
       (fromRpcError (RpcError.InvalidParams
         ("Method '" ++ m ++ "' requires array parameters"))).code = -32602 ∧
       (fromRpcError (RpcError.InvalidParams
         ("Method '" ++ m ++ "' requires parameters"))).code = -32602) := by
  constructor
  · intro β P R v m dP f parse body₁ body₂ fs hp1 hc hg hp2
    constructor
    · simp only [handleArray, hp1, hp2]
      rw [decodeHandlerRequest_null_vs_removed dP fs hc hg]
    · simp only [handleObj, hp1, hp2]
      rw [decodeHandlerRequest_null_vs_removed dP fs hc hg]
  · intro β P R v m dP f parse body fs request hp hc hg hdec hver
    have hpn := decodeHandlerRequest_params_none dP fs request hc hg hdec
    refine ⟨?_, ?_, rfl, rfl⟩
    · simp only [handleArray, hp]
      rw [hdec]
      simp [hver, hpn]
    · simp only [handleObj, hp]
      rw [hdec]
      simp [hver, hpn]

/-- Witness for C10: a concrete `addArray` request with `"params": null`
behaves like the same request without `params` and fails with
`InvalidParams`. -/
theorem c10_null_params_treated_as_absent_witness :
    (handleArray "2.0" "addArray" (fun x : Json => some x)
        (fun p : Json => Except.ok p)
        (fun b : Bool =>
          if b then
            Except.ok (Json.obj [("jsonrpc", Json.str "2.0"),
              ("method", Json.str "addArray"), ("params", Json.null),
              ("id", Json.num 7)])
          else
            Except.ok (Json.obj (removeField [("jsonrpc", Json.str "2.0"),
              ("method", Json.str "addArray"), ("params", Json.null),
              ("id", Json.num 7)] "params")))
        true =
      handleArray "2.0" "addArray" (fun x : Json => some x)
        (fun p : Json => Except.ok p)
        (fun b : Bool =>
          if b then
            Except.ok (Json.obj [("jsonrpc", Json.str "2.0"),
              ("method", Json.str "addArray"), ("params", Json.null),
              ("id", Json.num 7)])
          else
            Except.ok (Json.obj (removeField [("jsonrpc", Json.str "2.0"),
              ("method", Json.str "addArray"), ("params", Json.null),
              ("id", Json.num 7)] "params")))
        false) ∧
    (handleArray "2.0" "addArray" (fun x : Json => some x)
        (fun p : Json => Except.ok p)
        (fun b : Bool =>
          if b then
            Except.ok (Json.obj [("jsonrpc", Json.str "2.0"),
              ("method", Json.str "addArray"), ("params", Json.null),
              ("id", Json.num 7)])
          else
            Except.ok (Json.obj (removeField [("jsonrpc", Json.str "2.0"),
              ("method", Json.str "addArray"), ("params", Json.null),
              ("id", Json.num 7)] "params")))
        true =
      Except.error (RpcError.InvalidParams
        "Method 'addArray' requires array parameters")) := by
  constructor
  · exact (c10_null_params_treated_as_absent.1 Bool Json Json "2.0" "addArray"
      (fun x => some x) (fun p => Except.ok p)
      (fun b : Bool =>
        if b then
          Except.ok (Json.obj [("jsonrpc", Json.str "2.0"),
            ("method", Json.str "addArray"), ("params", Json.null),
            ("id", Json.num 7)])
        else
          Except.ok (Json.obj (removeField [("jsonrpc", Json.str "2.0"),
            ("method", Json.str "addArray"), ("params", Json.null),
            ("id", Json.num 7)] "params")))
      true false
      [("jsonrpc", Json.str "2.0"), ("method", Json.str "addArray"),
        ("params", Json.null), ("id", Json.num 7)]
      rfl (by decide) rfl rfl).1
  · exact (c10_null_params_treated_as_absent.2 Bool Json Json "2.0" "addArray"
      (fun x => some x) (fun p => Except.ok p)
      (fun b : Bool =>
        if b then
          Except.ok (Json.obj [("jsonrpc", Json.str "2.0"),
            ("method", Json.str "addArray"), ("params", Json.null),
            ("id", Json.num 7)])
        else
          Except.ok (Json.obj (removeField [("jsonrpc", Json.str "2.0"),
            ("method", Json.str "addArray"), ("params", Json.null),
            ("id", Json.num 7)] "params")))
      true
      [("jsonrpc", Json.str "2.0"), ("method", Json.str "addArray"),
        ("params", Json.null), ("id", Json.num 7)]
      ⟨"2.0", "addArray", none, Id.Number 7⟩
      rfl (by decide) rfl rfl rfl).1

/-- C7 counterexample: at the concrete non-JSON input (the parse fails with
serde's "expected value" message, surfacing as `RpcError::SerdeError`), the
example's `response_error` does return `id: null` and `jsonrpc: null`, but
hard-codes wire error code -32603 — not the -32002 serialization-failure code
the claim states. -/
theorem c7_unparseable_input_code_counterexample :
    (jsonGet (response_error
        (fun _ : Unit => Except.error "expected value at line 1 column 1") ()
        (RpcError.SerdeError "expected value at line 1 column 1")) "jsonrpc" =
      some Json.null) ∧
    (jsonGet (response_error
        (fun _ : Unit => Except.error "expected value at line 1 column 1") ()
        (RpcError.SerdeError "expected value at line 1 column 1")) "id" =
      some Json.null) ∧
    ((jsonGet (response_error
        (fun _ : Unit => Except.error "expected value at line 1 column 1") ()
        (RpcError.SerdeError "expected value at line 1 column 1")) "error").bind
      (fun e => jsonGet e "code") = some (Json.num (-32603))) ∧
    ((Json.num (-32603) : Json) ≠ Json.num (-32002)) := by
  refine ⟨rfl, rfl, rfl, ?_⟩
  intro h
  injection h with h'
  exact absurd h' (by decide)

/-- C7 (amended): for every input buffer that is not parseable as JSON, the
error response built by the example's `response_error` has `id` equal to JSON
null, `jsonrpc` equal to JSON null, and error code -32603 (the example's
hard-coded internal-error code) with the internal error's display text as
message — not wire code -32002. -/
theorem c7_unparseable_input_error_response {β : Type}
    (parse : β → Except String Json) (body : β) (err : RpcError) (e : String)
    (hparse : parse body = Except.error e) :
    response_error parse body err =
      Json.obj [("jsonrpc", Json.null),
        ("error", Json.obj [("code", Json.num (-32603)),
          ("message", Json.str (rpcErrorToString err))]),
        ("id", Json.null)] := by
  simp only [response_error, hparse]

/-- Witness for the amended C7 at a concrete unparseable buffer. -/
theorem c7_unparseable_input_error_response_witness :
    response_error (fun _ : Unit => Except.error "expected value at line 1 column 1")
      () (RpcError.SerdeError "expected value at line 1 column 1") =
      Json.obj [("jsonrpc", Json.null),
        ("error", Json.obj [("code", Json.num (-32603)),
          ("message", Json.str
            "serialize/deserialize error: expected value at line 1 column 1")]),
        ("id", Json.null)] :=
  c7_unparseable_input_error_response
    (fun _ : Unit => Except.error "expected value at line 1 column 1") ()
    (RpcError.SerdeError "expected value at line 1 column 1")
    "expected value at line 1 column 1" rfl

/-- C8 counterexample: the round-trip is not the identity on every envelope
value. For the concrete response with `result = Some(Value::Null)` (payload
type `serde_json::Value`, as used by object-mode handlers), serialization
emits `"result": null`, and the derived deserializer of `Option<T>` reads a
JSON `null` back as `None` — a structurally different value. -/
theorem c8_roundtrip_counterexample :
    respFromJson (fun x => some x) (respToJson (fun x => x)
      (⟨JsonRpcVersion.V2_0, some Json.null, none,
        Id.Number 1⟩ : JsonRpcResponse Json)) ≠
    some (⟨JsonRpcVersion.V2_0, some Json.null, none,
      Id.Number 1⟩ : JsonRpcResponse Json) := by
  intro h
  have heval : respFromJson (fun x => some x) (respToJson (fun x => x)
      (⟨JsonRpcVersion.V2_0, some Json.null, none,
        Id.Number 1⟩ : JsonRpcResponse Json)) =
      some (⟨JsonRpcVersion.V2_0, none, none,
        Id.Number 1⟩ : JsonRpcResponse Json) := rfl
  rw [heval] at h
  injection h with h'
  have hres := congrArg JsonRpcResponse.result h'
  simp at hres

/-- C8 (amended): serialize-then-parse is the identity on every field of both
envelopes, for both protocol versions and payload type `serde_json::Value`,
provided each present optional payload (`params`, `result`, `error.data`) is
not the JSON literal `null` (a present `null` parses back as absent: serde's
`Option` deserializer maps JSON `null` to `None`). The request-envelope parser
is the spec-modelled `reqFromJson`. -/
theorem c8_envelope_roundtrip :
    (∀ r : JsonRpcRequest Json, r.params ≠ some Json.null →
      reqFromJson (fun x => some x) (reqToJson (fun x => x) r) = some r) ∧
    (∀ r : JsonRpcResponse Json, r.result ≠ some Json.null →
      (∀ e, r.error = some e → e.data ≠ some Json.null) →
      respFromJson (fun x => some x) (respToJson (fun x => x) r) = some r) := by
  constructor
  · intro r hparams
    obtain ⟨v, method, params, i⟩ := r
    have hp' : params ≠ some Json.null := hparams
    rcases params with _ | pv
    · cases v <;> cases i <;> rfl
    · have hpv : pv ≠ Json.null := fun hh => hp' (by rw [hh])
      cases pv <;> try exact absurd rfl hpv
      all_goals cases v <;> cases i <;> rfl
  · intro r hres herr
    obtain ⟨v, res, err, i⟩ := r
    have hres' : res ≠ some Json.null := hres
    have herr' : ∀ e, err = some e → e.data ≠ some Json.null := herr
    rcases res with _ | rv
    all_goals try (have hrv : rv ≠ Json.null := fun hh => hres' (by rw [hh]))
    all_goals try (cases rv)
    all_goals try (exact absurd rfl hrv)
    all_goals rcases err with _ | ⟨c, msg, d⟩
    all_goals try (have hd : d ≠ some Json.null := herr' ⟨c, msg, d⟩ rfl)
    all_goals try (rcases d with _ | dd)
    all_goals try (have hdd : dd ≠ Json.null := fun hh => hd (by rw [hh]))
    all_goals try (cases dd)
    all_goals try (exact absurd rfl hdd)
    all_goals cases v <;> cases i <;> rfl

/-- Witness for the amended C8 at concrete request and response values. -/
theorem c8_envelope_roundtrip_witness :
    reqFromJson (fun x => some x) (reqToJson (fun x => x)
      (⟨JsonRpcVersion.V2_0, "echoArray", some (Json.arr [Json.str "hi"]),
        Id.Number 2⟩ : JsonRpcRequest Json)) =
      some (⟨JsonRpcVersion.V2_0, "echoArray", some (Json.arr [Json.str "hi"]),
        Id.Number 2⟩ : JsonRpcRequest Json) ∧
    respFromJson (fun x => some x) (respToJson (fun x => x)
      (⟨JsonRpcVersion.V1_0, some (Json.str "hi"),
        some ⟨-32003, "boom", none⟩, Id.String "id-3"⟩ : JsonRpcResponse Json)) =
      some (⟨JsonRpcVersion.V1_0, some (Json.str "hi"),
        some ⟨-32003, "boom", none⟩, Id.String "id-3"⟩ : JsonRpcResponse Json) := by
  constructor
  · exact c8_envelope_roundtrip.1
      ⟨JsonRpcVersion.V2_0, "echoArray", some (Json.arr [Json.str "hi"]),
        Id.Number 2⟩ (by simp)
  · exact c8_envelope_roundtrip.2
      ⟨JsonRpcVersion.V1_0, some (Json.str "hi"),
        some ⟨-32003, "boom", none⟩, Id.String "id-3"⟩ (by simp)
      (by intro e he; injection he with he'; rw [← he']; simp)

end Jsonrpc
